import Mathlib

/-!
Verification development for the Go AG-UI chat agent
(`agent-go-ag-ui`): a shallow embedding of the thread state store
(`internal/agui/streamer.go`, `StateManager`), the message validator
(`internal/transport/sse/handler.go`, `ValidateMessages`), the ADK → AG-UI
event translator and run loop (`internal/agui_adapter/agui_adapter.go`),
the protocol orchestrator (`RunAgentProtocol`) and the two transport
handlers (SSE and Connect RPC), together with theorems about the
protocol-level event sequences they produce.

Go `map[string]interface{}` values are modelled as association lists of
`String × JValue`; Go map reads take the first matching binding and writes
replace it in place, so lists built by the embedded operations always keep
one binding per key.  Mutation-free Go code paths are translated into pure
functions; the adapter goroutine writing into its output channel is
modelled as the list of events it sends, in order, before closing the
channel.  Channel sends and transport writes are assumed to succeed (write
failures abort a request at the transport level and are outside the claims
considered here).
-/

/-- Dynamic JSON-like values: the model of Go `interface{}` as decoded from
JSON (`nil`, booleans, numbers, strings, arrays, objects).  Numbers are
modelled as integers; no claim depends on fractional values. -/
inductive JValue where
  | null : JValue
  | bool (b : Bool) : JValue
  | num (n : Int) : JValue
  | str (s : String) : JValue
  | arr (elems : List JValue) : JValue
  | obj (fields : List (String × JValue)) : JValue

/-- A Go `map[string]interface{}` value, modelled as an association list. -/
abbrev GoMap := List (String × JValue)

/-- Go map read `m[k]`: the first binding for `k` (the embedded write
operation keeps at most one binding per key). -/
def lookupA {α : Type} (m : List (String × α)) (k : String) : Option α :=
  (m.find? (fun p => p.1 = k)).map (·.2)

/-- Go map write `m[k] = v`: replace the binding for `k` in place if
present, otherwise append a new binding. -/
def setA {α : Type} (m : List (String × α)) (k : String) (v : α) :
    List (String × α) :=
  if (m.find? (fun p => p.1 = k)).isSome then
    m.map (fun p => if p.1 = k then (k, v) else p)
  else
    m ++ [(k, v)]

/-- Go map delete `delete(m, k)`. -/
def deleteA {α : Type} (m : List (String × α)) (k : String) :
    List (String × α) :=
  m.filter (fun p => ¬ p.1 = k)

/-- The Go loop `for k, v := range src { dst[k] = v }`: fold the writes of
`src` over `dst`.  Go iterates a map in unspecified order but each key
occurs once, so the fold order is immaterial for the resulting mapping. -/
def copyIntoA {α : Type} (dst src : List (String × α)) : List (String × α) :=
  src.foldl (fun acc p => setA acc p.1 p.2) dst

/-- `result := make(map); for k, v := range m { result[k] = v }`:
the defensive copy idiom used throughout `StateManager`. -/
def copyA {α : Type} (m : List (String × α)) : List (String × α) :=
  copyIntoA [] m

/-- Reading a raw association list with Go map semantics: the *last*
binding wins (a later `m[k] = v` overwrites an earlier one). -/
def govGet {α : Type} (m : List (String × α)) (k : String) : Option α :=
  lookupA m.reverse k

/-- `StateManager` (`internal/agui/streamer.go`): per-thread key/value
state plus last-access timestamps.  Timestamps (`time.Now()`) are supplied
by callers as an abstract `Nat` clock value. -/
structure StateManager where
  states : List (String × GoMap)
  lastAccess : List (String × Nat)

/-- `NewStateManager`. -/
def NewStateManager : StateManager := ⟨[], []⟩

/-- `StateManager.Get`: returns a copy of the stored state for the thread,
or a fresh empty map if absent (returning early, before the last-access
update, in the absent case). -/
def StateManager.Get (m : StateManager) (threadID : String) (now : Nat) :
    GoMap × StateManager :=
  match lookupA m.states threadID with
  | none => ([], m)
  | some state =>
      (copyA state, { m with lastAccess := setA m.lastAccess threadID now })

/-- `StateManager.Set`: replaces the thread state wholesale with a
defensive copy (`nil` incoming maps and empty maps coincide in this
model). -/
def StateManager.Set (m : StateManager) (threadID : String) (state : GoMap)
    (now : Nat) : StateManager :=
  { states := setA m.states threadID (copyA state),
    lastAccess := setA m.lastAccess threadID now }

/-- `StateManager.Merge`: overlay the incoming state on the existing state
(incoming wins per key), store the merged map, and return a copy of it. -/
def StateManager.Merge (m : StateManager) (threadID : String)
    (incomingState : GoMap) (now : Nat) : GoMap × StateManager :=
  let existing := (lookupA m.states threadID).getD []
  let merged := copyIntoA (copyIntoA [] existing) incomingState
  (copyA merged,
   { states := setA m.states threadID merged,
     lastAccess := setA m.lastAccess threadID now })

/-- `StateManager.Delete`. -/
def StateManager.Delete (m : StateManager) (threadID : String) :
    StateManager :=
  { states := deleteA m.states threadID,
    lastAccess := deleteA m.lastAccess threadID }

/-- `StateManager.Cleanup`: remove all threads whose last access is older
than `olderThan` before `now`, returning the number removed. -/
def StateManager.Cleanup (m : StateManager) (olderThan now : Nat) :
    Nat × StateManager :=
  let stale := m.lastAccess.filter (fun p => now - p.2 > olderThan)
  (stale.length,
   { states := stale.foldl (fun acc p => deleteA acc p.1) m.states,
     lastAccess := stale.foldl (fun acc p => deleteA acc p.1) m.lastAccess })

/-- AG-UI protocol events, as constructed by the `events.New*Event`
constructors used in this repository.  The set is closed: the embedded
code emits no other event kinds. -/
inductive PEvent where
  | runStarted (threadId runId : String)
  | textMessageStart (messageId role : String)
  | textMessageContent (messageId delta : String)
  | textMessageEnd (messageId : String)
  | toolCallStart (toolCallId name : String)
  | toolCallArgs (toolCallId argsJson : String)
  | toolCallResult (messageId toolCallId resultJson : String)
  | toolCallEnd (toolCallId : String)
  | runFinished (threadId runId : String)
  | runError (message runId : String)
  | stateSnapshot (state : GoMap)

mutual

/-- `json.Marshal` on decoded JSON values (external `encoding/json`
collaborator).  Total on `JValue`; Go key-sorting of map keys is not
reproduced since no claim inspects the serialized text. -/
def JValue.render : JValue → String
  | JValue.null => "null"
  | JValue.bool b => if b then "true" else "false"
  | JValue.num n => toString n
  | JValue.str s => "\x22" ++ s ++ "\x22"
  | JValue.arr elems => "[" ++ renderElems elems ++ "]"
  | JValue.obj fields => "\x7b" ++ renderFields fields ++ "\x7d"

/-- Serialization of a JSON array's elements, comma separated. -/
def renderElems : List JValue → String
  | [] => ""
  | [x] => JValue.render x
  | x :: xs => JValue.render x ++ "," ++ renderElems xs

/-- Serialization of a JSON object's fields, comma separated. -/
def renderFields : List (String × JValue) → String
  | [] => ""
  | [(k, v)] => "\x22" ++ k ++ "\x22:" ++ JValue.render v
  | (k, v) :: xs => "\x22" ++ k ++ "\x22:" ++ JValue.render v ++ "," ++ renderFields xs

end

/-- `genai.FunctionCall`: the runner-provided call id, tool name, and
optional argument map. -/
structure FunctionCall where
  id : String
  name : String
  args : Option GoMap

/-- `genai.FunctionResponse`: the runner-provided call id and optional
response payload map. -/
structure FunctionResponse where
  id : String
  response : Option GoMap

/-- One `genai.Part` (`ADKPart` here, to avoid clashing with a library name) of an ADK event's content: possibly-empty text, an
optional function call, and an optional function response (a single part
may carry several of these at once). -/
structure ADKPart where
  text : String
  functionCall : Option FunctionCall
  functionResponse : Option FunctionResponse

/-- `adkEvent.Content`: a parts list. -/
structure ADKContent where
  parts : List ADKPart

/-- One `*session.Event` from the ADK runner channel: optional content and
the `IsFinalResponse()` marker. -/
structure ADKEvent where
  content : Option ADKContent
  isFinalResponse : Bool

/-- Per-run mutable context of `translateADKEvent`: the accumulated
response text (`responseBuilder`), the runner-id → protocol-id correlation
table (`toolCallMap`), the open tool calls (`startedToolCalls`), and the
counter backing `events.GenerateToolCallID` (fresh ids are modelled as a
deterministic counter sequence). -/
structure TransState where
  responseBuilder : String
  toolCallMap : List (String × String)
  startedToolCalls : List (String × Bool)
  nextGenId : Nat

/-- Initial per-run translation context. -/
def initialTransState : TransState := ⟨"", [], [], 0⟩

/-- `events.GenerateToolCallID`, modelled as the `n`-th member of a
deterministic fresh-id sequence. -/
def GenerateToolCallID (n : Nat) : String := "toolcall_gen_" ++ toString n

/-- The body of the `for _, part := range adkEvent.Content.Parts` loop of
`translateADKEvent` (`internal/agui_adapter/agui_adapter.go`): text first,
then function call, then function response, returning the updated context
and the events sent to the channel, in order. -/
def translatePart (messageID : String) (s : TransState) (p : ADKPart) :
    TransState × List PEvent :=
  let (s1, textEvs) :=
    if p.text ≠ "" then
      ({ s with responseBuilder := s.responseBuilder ++ p.text },
       [PEvent.textMessageContent messageID p.text])
    else (s, [])
  let (s2, callEvs) :=
    match p.functionCall with
    | none => (s1, [])
    | some fc =>
        let agid := if fc.id = "" then GenerateToolCallID s1.nextGenId else fc.id
        let next := if fc.id = "" then s1.nextGenId + 1 else s1.nextGenId
        let argsEvs :=
          match fc.args with
          | none => []
          | some args => [PEvent.toolCallArgs agid (JValue.render (JValue.obj args))]
        ({ s1 with
            toolCallMap := setA s1.toolCallMap fc.id agid,
            startedToolCalls := setA s1.startedToolCalls agid true,
            nextGenId := next },
         PEvent.toolCallStart agid fc.name :: argsEvs)
  let (s3, respEvs) :=
    match p.functionResponse with
    | none => (s2, [])
    | some fr =>
        let agid :=
          match lookupA s2.toolCallMap fr.id with
          | some v => v
          | none => GenerateToolCallID s2.nextGenId
        let next :=
          match lookupA s2.toolCallMap fr.id with
          | some _ => s2.nextGenId
          | none => s2.nextGenId + 1
        let resultStr :=
          match fr.response with
          | none => ""
          | some resp => JValue.render (JValue.obj resp)
        ({ s2 with startedToolCalls := deleteA s2.startedToolCalls agid,
                   nextGenId := next },
         [PEvent.toolCallResult messageID agid resultStr,
          PEvent.toolCallEnd agid])
  (s3, textEvs ++ callEvs ++ respEvs)

/-- Translation of a whole parts list, left to right. -/
def translateParts (messageID : String) :
    TransState → List ADKPart → TransState × List PEvent
  | s, [] => (s, [])
  | s, p :: ps =>
      let (s1, evs1) := translatePart messageID s p
      let (s2, evs2) := translateParts messageID s1 ps
      (s2, evs1 ++ evs2)

/-- `translateADKEvent`: skip events with nil content, otherwise translate
every part. -/
def translateADKEvent (messageID : String) (s : TransState) (e : ADKEvent) :
    TransState × List PEvent :=
  match e.content with
  | none => (s, [])
  | some c => translateParts messageID s c.parts

/-- The `for adkEvent := range adkEvents` consumption loop of
`AGUIAdapter.RunAgent`: skip nil items, translate each event, and stop
(`break`) right after the first event whose `IsFinalResponse()` is true. -/
def consumeADK (messageID : String) :
    TransState → List (Option ADKEvent) → TransState × List PEvent
  | s, [] => (s, [])
  | s, none :: rest => consumeADK messageID s rest
  | s, some e :: rest =>
      let (s1, evs1) := translateADKEvent messageID s e
      if e.isFinalResponse then (s1, evs1)
      else
        let (s2, evs2) := consumeADK messageID s1 rest
        (s2, evs1 ++ evs2)

/-- Black-box behavior of the external collaborators for one run: whether
`runner.New` fails, whether `sessionMgr.GetOrCreate` fails (each with its
error text), and the sequence the runner channel delivers. -/
structure RunnerEnv where
  runnerNewError : Option String
  sessionError : Option String
  adkEvents : List (Option ADKEvent)

/-- The eligibility test inside the last-user-message scan of
`AGUIAdapter.RunAgent`: the message's `role` entry must be the string
`"user"` (a missing entry or a non-string fails the type assertion) and
its `content` entry must be a non-empty string; on success the content
string is returned. -/
def pickUserContent (msg : GoMap) : Option String :=
  match lookupA msg "role" with
  | some (JValue.str r) =>
      if r = "user" then
        match lookupA msg "content" with
        | some (JValue.str c) => if c ≠ "" then some c else none
        | _ => none
      else none
  | _ => none

/-- The `for i := len(input.Messages) - 1; i >= 0; i--` scan of
`AGUIAdapter.RunAgent`: messages later in the list take precedence, and a
message that fails `pickUserContent` is skipped (the loop continues to
earlier messages). -/
def findLastUserLoop : List GoMap → Option String
  | [] => none
  | msg :: rest =>
      match findLastUserLoop rest with
      | some c => some c
      | none => pickUserContent msg

/-- The fallback delta sent when a run produced no content. -/
def defaultNoResponseMsg : String :=
  "I received your message, but couldn\x27t generate a response."

/-- The event sequence the goroutine of `AGUIAdapter.RunAgent` writes to
its output channel before closing it: the runner-creation, session, and
no-user-message failures each yield a single `RunError`; otherwise the
runner output is consumed and translated, and if no text accumulated the
default content event is appended.  The Go function itself always returns
a nil error (failures are in-band events), so this list is the complete
channel content. -/
def runAgentEvents (env : RunnerEnv) (messages : List GoMap)
    (runID messageID : String) : List PEvent :=
  match env.runnerNewError with
  | some e => [PEvent.runError ("failed to create runner: " ++ e) runID]
  | none =>
  match env.sessionError with
  | some e => [PEvent.runError ("failed to get session: " ++ e) runID]
  | none =>
  match findLastUserLoop messages with
  | none => [PEvent.runError "no valid user message found" runID]
  | some _ =>
      let (s, evs) := consumeADK messageID initialTransState env.adkEvents
      if s.responseBuilder = "" then
        evs ++ [PEvent.textMessageContent messageID defaultNoResponseMsg]
      else evs

/-- `RunAgentInput`, restricted to the fields the embedded protocol logic
reads (`tools`, `context` and `forwardedProps` are opaque pass-through
data never consulted by the handlers or the adapter). -/
structure RunAgentInput where
  threadID : String
  runID : String
  state : GoMap
  messages : List GoMap

/-- `events.GenerateThreadID`, abstracted to a fixed fresh token. -/
def GenerateThreadID : String := "thread_gen"

/-- `events.GenerateRunID`, abstracted to a fixed fresh token. -/
def GenerateRunID : String := "run_gen"

/-- `events.GenerateMessageID`, abstracted to a fixed fresh token. -/
def GenerateMessageID : String := "msg_gen"

/-- `threadID := input.ThreadID; if threadID == "" { generate }`. -/
def resolveThreadID (input : RunAgentInput) : String :=
  if input.threadID = "" then GenerateThreadID else input.threadID

/-- `runID := input.RunID; if runID == "" { generate }`. -/
def resolveRunID (input : RunAgentInput) : String :=
  if input.runID = "" then GenerateRunID else input.runID

/-- Go `id == nil || id == ""` on an `interface{}` value: nil, or a string
dynamically equal to the empty string (interface equality compares dynamic
type and value, so non-string values never equal `""`). -/
def isNilOrEmptyString : JValue → Bool
  | JValue.null => true
  | JValue.str s => s = ""
  | _ => false

/-- The closed role set of `ValidateMessages`. -/
def validRoles : List String := ["user", "assistant", "system", "developer", "tool"]

/-- The per-message checks of `ValidateMessages`
(`internal/transport/sse/handler.go`), in source order: `id` present,
non-nil and not the empty string; `role` present, non-nil, a string, and
in `validRoles`; for user/assistant roles, `content` present, non-nil, and
a string or an array.  (A nil message map is indistinguishable from an
empty one in this model; both are rejected.) -/
def validateMessageAt (i : Nat) (msg : GoMap) : Option String :=
  match lookupA msg "id" with
  | none =>
      some ("message at index " ++ toString i ++ " missing required field \x27id\x27")
  | some idv =>
    if isNilOrEmptyString idv then
      some ("message at index " ++ toString i ++ " missing required field \x27id\x27")
    else
    match lookupA msg "role" with
    | none =>
        some ("message at index " ++ toString i ++ " missing required field \x27role\x27")
    | some JValue.null =>
        some ("message at index " ++ toString i ++ " missing required field \x27role\x27")
    | some (JValue.str roleStr) =>
        if validRoles.contains roleStr then
          if roleStr = "user" ∨ roleStr = "assistant" then
            match lookupA msg "content" with
            | none =>
                some ("message at index " ++ toString i ++
                  " missing required field \x27content\x27 for role \x27" ++ roleStr ++ "\x27")
            | some JValue.null =>
                some ("message at index " ++ toString i ++
                  " missing required field \x27content\x27 for role \x27" ++ roleStr ++ "\x27")
            | some (JValue.str _) => none
            | some (JValue.arr _) => none
            | some _ =>
                some ("message at index " ++ toString i ++
                  " has invalid \x27content\x27 type (expected string or array)")
          else none
        else
          some ("message at index " ++ toString i ++
            " has invalid \x27role\x27 value: " ++ roleStr)
    | some _ =>
        some ("message at index " ++ toString i ++
          " has invalid \x27role\x27 type (expected string)")

/-- The `for i, msg := range messages` loop of `ValidateMessages`,
returning the first error, if any. -/
def validateMessagesFrom : Nat → List GoMap → Option String
  | _, [] => none
  | i, msg :: rest =>
      match validateMessageAt i msg with
      | some e => some e
      | none => validateMessagesFrom (i + 1) rest

/-- `ValidateMessages`: `none` means the messages pass validation. -/
def validateMessages (messages : List GoMap) : Option String :=
  validateMessagesFrom 0 messages

/-- `AGUIAdapter.RunAgentProtocol` (`internal/agui/streamer.go`): resolve
ids, merge the incoming state unconditionally, short-circuit to a single
`StateSnapshot` when there are no messages, and otherwise wrap the
adapter's channel output in the `RunStarted`/`TextMessageStart` prefix and
`TextMessageEnd`/`RunFinished` suffix.  `RunAgent` always returns a nil
error, so its error branch is unreachable; sends are modelled as
succeeding. -/
def runAgentProtocol (env : RunnerEnv) (stateMgr : StateManager)
    (input : RunAgentInput) (now : Nat) : List PEvent × StateManager :=
  let threadID := resolveThreadID input
  let runID := resolveRunID input
  let (mergedState, mgr) := stateMgr.Merge threadID input.state now
  if input.messages.length = 0 then
    ([PEvent.stateSnapshot mergedState], mgr)
  else
    let messageID := GenerateMessageID
    ([PEvent.runStarted threadID runID,
      PEvent.textMessageStart messageID "assistant"]
       ++ runAgentEvents env input.messages runID messageID
       ++ [PEvent.textMessageEnd messageID,
           PEvent.runFinished threadID runID],
     mgr)

/-- `Handler.HandleAgentRequest` (`internal/transport/sse/handler.go`),
from the point where the request body has been decoded (method dispatch
and JSON decoding errors use HTTP status codes before any event exists):
resolve ids, validate (a failure sends exactly one `RunError` and
returns), merge state, short-circuit on empty messages, otherwise run.
The event list is what is written to the SSE stream, in order, with writes
modelled as succeeding. -/
def handleAgentRequest (env : RunnerEnv) (stateMgr : StateManager)
    (input : RunAgentInput) (now : Nat) : List PEvent × StateManager :=
  let threadID := resolveThreadID input
  let runID := resolveRunID input
  match validateMessages input.messages with
  | some e => ([PEvent.runError ("Invalid messages: " ++ e) runID], stateMgr)
  | none =>
    let (mergedState, mgr) := stateMgr.Merge threadID input.state now
    if input.messages.length = 0 then
      ([PEvent.stateSnapshot mergedState], mgr)
    else
      let messageID := GenerateMessageID
      ([PEvent.runStarted threadID runID,
        PEvent.textMessageStart messageID "assistant"]
         ++ runAgentEvents env input.messages runID messageID
         ++ [PEvent.textMessageEnd messageID,
             PEvent.runFinished threadID runID],
       stateMgr.Merge threadID input.state now |>.2)

/-- Modelled from the spec: `agui_adapter.RunAgentInput.Validate`, called
by the Connect RPC handler, is not present in the source tree (only its
caller is).  Per §4.5 of the spec the validation step enforces the Message
invariants of §3, which is exactly the shared `ValidateMessages` of the
`agui_adapter` package; it is embedded as that check on the input's
message list. -/
def inputValidate (input : RunAgentInput) : Option String :=
  validateMessages input.messages

/-- Outcome of one Connect RPC `RunAgent` call: the protocol events sent
on the stream and the transport-level error returned to the RPC framework,
if any. -/
structure ConnectOutcome where
  sent : List PEvent
  transportError : Option String

/-- `Handler.RunAgent` (`internal/transport/connectrpc/handler.go`): a
validation failure returns a transport-level invalid-argument error
*without sending any event*; otherwise the shared `RunAgentProtocol` runs
with the Connect sender.  Protobuf conversion of well-formed inputs is
lossless for the fields the protocol reads and is not re-modelled. -/
def connectRunAgent (env : RunnerEnv) (stateMgr : StateManager)
    (input : RunAgentInput) (now : Nat) : ConnectOutcome × StateManager :=
  match inputValidate input with
  | some e => (⟨[], some ("validation failed: " ++ e)⟩, stateMgr)
  | none =>
      let (evs, mgr) := runAgentProtocol env stateMgr input now
      (⟨evs, none⟩, mgr)

/-- Event classifier: is this a `RunError`? -/
def PEvent.isRunError : PEvent → Bool
  | PEvent.runError _ _ => true
  | _ => false

/-- Event classifier: is this a `RunFinished`? -/
def PEvent.isRunFinished : PEvent → Bool
  | PEvent.runFinished _ _ => true
  | _ => false

/-- Event classifier: is this a `RunStarted`? -/
def PEvent.isRunStarted : PEvent → Bool
  | PEvent.runStarted _ _ => true
  | _ => false

/-- Event classifier: is this a `TextMessageContent`? -/
def PEvent.isTextMessageContent : PEvent → Bool
  | PEvent.textMessageContent _ _ => true
  | _ => false

/-- Event classifier: is this a `StateSnapshot`? -/
def PEvent.isStateSnapshot : PEvent → Bool
  | PEvent.stateSnapshot _ => true
  | _ => false

/-- Event classifier: is this a `ToolCallEnd` (for any id)? -/
def PEvent.isToolCallEnd : PEvent → Bool
  | PEvent.toolCallEnd _ => true
  | _ => false

/-- Event classifier: a `ToolCallStart` carrying the given tool-call id. -/
def isToolCallStartFor (id : String) : PEvent → Bool
  | PEvent.toolCallStart i _ => i = id
  | _ => false

/-- Event classifier: a `ToolCallEnd` carrying the given tool-call id. -/
def isToolCallEndFor (id : String) : PEvent → Bool
  | PEvent.toolCallEnd i => i = id
  | _ => false

/-- The delta carried by a `TextMessageContent` event. -/
def contentDelta : PEvent → Option String
  | PEvent.textMessageContent _ d => some d
  | _ => none

/-- Concrete runner environment with a successful runner/session and no
output, used by witnesses and counterexamples. -/
def exEnvOk : RunnerEnv := ⟨none, none, []⟩

/-- A well-formed user message. -/
def exMsgUser : GoMap :=
  [("id", JValue.str "m1"), ("role", JValue.str "user"), ("content", JValue.str "hi")]

/-- A well-formed assistant message (passes validation, but is not an
eligible user turn). -/
def exMsgAssistant : GoMap :=
  [("id", JValue.str "m1"), ("role", JValue.str "assistant"), ("content", JValue.str "hi")]

/-- A message with a role outside the closed role set. -/
def exMsgBadRole : GoMap :=
  [("id", JValue.str "m1"), ("role", JValue.str "robot"), ("content", JValue.str "hi")]

/-- A single-item runner output: one function call, no response, final. -/
def exCallOnlyEvent : ADKEvent :=
  ⟨some ⟨[⟨"", some ⟨"fc1", "search", none⟩, none⟩]⟩, true⟩

/-- Spec-side predicate for C7 (from the spec's words, for comparison with
the loop translated from the source): a message whose `role` is the string
`"user"` and whose `content` is a non-empty string. -/
def isEligibleUserMessage (msg : GoMap) : Bool :=
  (match lookupA msg "role" with
   | some (JValue.str r) => r = "user"
   | _ => false)
  && (match lookupA msg "content" with
      | some (JValue.str c) => c != ""
      | _ => false)

/-- Spec-side selection for C7 (from the spec's words): the content of the
last message of the list satisfying `isEligibleUserMessage`, if any. -/
def specLastUserContent (msgs : List GoMap) : Option String :=
  (msgs.reverse.find? isEligibleUserMessage).bind (fun msg =>
    match lookupA msg "content" with
    | some (JValue.str c) => some c
    | _ => none)

theorem lookupA_cons {α : Type} (p : String × α) (m : List (String × α)) (k : String) :
    lookupA (p :: m) k = if p.1 = k then some p.2 else lookupA m k := by
  by_cases h : p.1 = k
  · simp [lookupA, List.find?_cons_of_pos, h]
  · simp [lookupA, List.find?_cons_of_neg, h]

theorem lookupA_append {α : Type} (l₁ l₂ : List (String × α)) (k : String) :
    lookupA (l₁ ++ l₂) k = (lookupA l₁ k).or (lookupA l₂ k) := by
  simp [lookupA, List.find?_append]
  cases l₁.find? (fun p => p.1 = k) <;> simp [Option.or]

theorem lookupA_eq_none_iff {α : Type} (m : List (String × α)) (k : String) :
    lookupA m k = none ↔ ∀ p ∈ m, p.1 ≠ k := by
  simp [lookupA, List.find?_eq_none]


theorem lookupA_isSome_iff_find? {α : Type} (m : List (String × α)) (k : String) :
    (lookupA m k).isSome = (m.find? (fun p => p.1 = k)).isSome := by
  simp [lookupA]

theorem lookupA_map_replace {α : Type} (m : List (String × α)) (k k' : String) (v : α) :
    lookupA (m.map (fun p => if p.1 = k then (k, v) else p)) k'
      = if k' = k then (lookupA m k).map (fun _ => v) else lookupA m k' := by
  induction m with
  | nil => simp [lookupA]
  | cons q rest ih =>
      by_cases hq : q.1 = k
      · by_cases hk : k' = k
        · subst hk
          simp [hq, lookupA_cons, ih]
        · have hqk' : ¬ q.1 = k' := fun h => hk ((h ▸ hq : k' = k))
          have hkk' : ¬ k = k' := fun h => hk h.symm
          simp [hq, hk, lookupA_cons, ih, hqk', hkk']
      · by_cases hq' : q.1 = k'
        · have hk : ¬ k' = k := fun h => hq ((h ▸ hq' : q.1 = k))
          simp [hq, hq', hk, lookupA_cons]
        · simp [hq, hq', lookupA_cons, ih]

theorem lookupA_setA {α : Type} (m : List (String × α)) (k k' : String) (v : α) :
    lookupA (setA m k v) k' = if k' = k then some v else lookupA m k' := by
  unfold setA
  split
  · rename_i hsome
    rw [lookupA_map_replace]
    by_cases hk : k' = k
    · have : (lookupA m k).isSome := by rw [lookupA_isSome_iff_find?]; exact hsome
      cases hns : lookupA m k with
      | none => rw [hns] at this; simp at this
      | some w => simp [hk, hns]
    · simp [hk]
  · rename_i hnone
    have hmn : lookupA m k = none := by
      have : m.find? (fun p => p.1 = k) = none := by
        cases hf : m.find? (fun p => p.1 = k) with
        | none => rfl
        | some x => rw [hf] at hnone; simp at hnone
      simp [lookupA, this]
    rw [lookupA_append]
    by_cases hk : k' = k
    · subst hk
      simp [hmn, lookupA_cons, Option.or]
    · have hkk' : ¬ k = k' := fun h => hk h.symm
      have hone : lookupA [(k, v)] k' = none := by
        rw [lookupA_cons]
        simp [hkk', lookupA]
      simp [hone, hk]

theorem govGet_nil {α : Type} (k : String) : govGet ([] : List (String × α)) k = none := rfl

theorem govGet_cons {α : Type} (p : String × α) (m : List (String × α)) (k : String) :
    govGet (p :: m) k = (govGet m k).or (if p.1 = k then some p.2 else none) := by
  unfold govGet
  rw [List.reverse_cons, lookupA_append]
  congr 1
  by_cases h : p.1 = k <;> simp [h, lookupA_cons, lookupA]

theorem lookupA_copyIntoA {α : Type} (src dst : List (String × α)) (k : String) :
    lookupA (copyIntoA dst src) k = (govGet src k).or (lookupA dst k) := by
  induction src generalizing dst with
  | nil => simp [copyIntoA, govGet, lookupA]
  | cons p rest ih =>
      have hstep : copyIntoA dst (p :: rest) = copyIntoA (setA dst p.1 p.2) rest := rfl
      rw [hstep, ih, govGet_cons, lookupA_setA, Option.or_assoc]
      congr 1
      by_cases h : p.1 = k
      · simp [h]
      · have : ¬ k = p.1 := fun hh => h hh.symm
        simp [h, this]

theorem lookupA_copyA {α : Type} (m : List (String × α)) (k : String) :
    lookupA (copyA m) k = govGet m k := by
  rw [copyA, lookupA_copyIntoA]
  simp [lookupA]

theorem setA_keys {α : Type} (m : List (String × α)) (k : String) (v : α) :
    (setA m k v).map Prod.fst = m.map Prod.fst
      ∨ ((setA m k v).map Prod.fst = m.map Prod.fst ++ [k] ∧ lookupA m k = none) := by
  unfold setA
  split
  · left
    rw [List.map_map]
    apply List.map_congr_left
    intro p _
    by_cases h : p.1 = k <;> simp [h]
  · right
    rename_i hnone
    constructor
    · simp
    · cases hf : m.find? (fun p => p.1 = k) with
      | none => simp [lookupA, hf]
      | some x => rw [hf] at hnone; simp at hnone

theorem setA_nodupKeys {α : Type} (m : List (String × α)) (k : String) (v : α)
    (h : (m.map Prod.fst).Nodup) : ((setA m k v).map Prod.fst).Nodup := by
  rcases setA_keys m k v with hsame | ⟨happ, hnone⟩
  · rw [hsame]; exact h
  · rw [happ]
    rw [List.nodup_append]
    refine ⟨h, List.nodup_singleton k, ?_⟩
    intro a ha
    simp only [List.mem_singleton]
    intro hak
    subst hak
    rcases List.mem_map.mp ha with ⟨p, hp, hpk⟩
    exact absurd hpk ((lookupA_eq_none_iff m a).mp hnone p hp)

theorem copyIntoA_nodupKeys {α : Type} (src dst : List (String × α))
    (h : (dst.map Prod.fst).Nodup) : ((copyIntoA dst src).map Prod.fst).Nodup := by
  induction src generalizing dst with
  | nil => exact h
  | cons p rest ih => exact ih (setA dst p.1 p.2) (setA_nodupKeys dst p.1 p.2 h)

theorem govGet_eq_lookupA_of_nodup {α : Type} (m : List (String × α)) (k : String)
    (h : (m.map Prod.fst).Nodup) : govGet m k = lookupA m k := by
  induction m with
  | nil => rfl
  | cons p rest ih =>
      rw [govGet_cons, lookupA_cons]
      have h' := h
      rw [List.map_cons, List.nodup_cons] at h'
      obtain ⟨hnotin, hrest⟩ := h'
      by_cases hp : p.1 = k
      · subst hp
        have : lookupA rest p.1 = none := by
          rw [lookupA_eq_none_iff]
          intro q hq hqk
          exact hnotin (hqk ▸ List.mem_map_of_mem Prod.fst hq)
        rw [ih hrest, this]
        simp
      · rw [ih hrest]
        simp [hp]

theorem copyA_nodupKeys {α : Type} (m : List (String × α)) :
    ((copyA m).map Prod.fst).Nodup :=
  copyIntoA_nodupKeys m [] (by simp)

theorem govGet_copyA {α : Type} (m : List (String × α)) (k : String) :
    govGet (copyA m) k = govGet m k := by
  rw [govGet_eq_lookupA_of_nodup _ _ (copyA_nodupKeys m), lookupA_copyA]

theorem merge_stored_eq (m : StateManager) (t : String) (inc : GoMap) (now : Nat) :
    lookupA (m.Merge t inc now).2.states t
      = some (copyIntoA (copyA ((lookupA m.states t).getD [])) inc) := by
  unfold StateManager.Merge
  simp only
  rw [lookupA_setA]
  simp [copyA]

theorem merge_result_eq (m : StateManager) (t : String) (inc : GoMap) (now : Nat) :
    (m.Merge t inc now).1
      = copyA (copyIntoA (copyA ((lookupA m.states t).getD [])) inc) := rfl

theorem merged_lookup (existing inc : GoMap) (k : String) :
    lookupA (copyIntoA (copyA existing) inc) k
      = (govGet inc k).or (govGet existing k) := by
  rw [lookupA_copyIntoA, lookupA_copyA]

theorem merged_nodup (existing inc : GoMap) :
    ((copyIntoA (copyA existing) inc).map Prod.fst).Nodup :=
  copyIntoA_nodupKeys inc (copyA existing) (copyA_nodupKeys existing)

theorem merge_result_lookup (m : StateManager) (t : String) (inc : GoMap)
    (now : Nat) (k : String) :
    lookupA (m.Merge t inc now).1 k
      = (govGet inc k).or (govGet ((lookupA m.states t).getD []) k) := by
  rw [merge_result_eq, lookupA_copyA,
    govGet_eq_lookupA_of_nodup _ _ (merged_nodup _ _), merged_lookup]

/-- C3: on a fresh state store, `Merge(t, A)` followed by `Merge(t, B)`
stores, and has returned, exactly the overlay of `B` on `A`: on every key
the result is `B`'s value where present and `A`'s otherwise. -/
theorem claim_C3_merge_precedence (t : String) (A B : GoMap) (n1 n2 : Nat)
    (hA : (A.map Prod.fst).Nodup) (hB : (B.map Prod.fst).Nodup) :
    ∀ k : String,
      lookupA ((lookupA ((NewStateManager.Merge t A n1).2.Merge t B n2).2.states t).getD []) k
        = (lookupA B k).or (lookupA A k)
    ∧ lookupA ((NewStateManager.Merge t A n1).2.Merge t B n2).1 k
        = (lookupA B k).or (lookupA A k) := by
  intro k
  have hA' : govGet A k = lookupA A k := govGet_eq_lookupA_of_nodup _ _ hA
  have hB' : govGet B k = lookupA B k := govGet_eq_lookupA_of_nodup _ _ hB
  have hstored1 : (lookupA (NewStateManager.Merge t A n1).2.states t).getD []
      = copyA A := by
    rw [merge_stored_eq]
    rfl
  constructor
  · rw [merge_stored_eq, hstored1]
    simp only [Option.getD_some]
    rw [merged_lookup, govGet_copyA, hA', hB']
  · rw [merge_result_lookup, hstored1, govGet_copyA, hA', hB']

/-- Witness for C3 at a concrete overlap: `A = {x:1}`, `B = {x:2, y:3}`;
the stored value at `x` is `B`'s. -/
theorem claim_C3_witness :
    lookupA ((lookupA ((NewStateManager.Merge "t" [("x", JValue.num 1)] 0).2.Merge "t"
        [("x", JValue.num 2), ("y", JValue.num 3)] 1).2.states "t").getD []) "x"
      = (lookupA [("x", JValue.num 2), ("y", JValue.num 3)] "x").or
          (lookupA [("x", JValue.num 1)] "x") :=
  (claim_C3_merge_precedence "t" [("x", JValue.num 1)]
    [("x", JValue.num 2), ("y", JValue.num 3)] 0 1
    (by decide) (by decide) "x").1

/-- C8: `Get` is total: on an absent thread id it returns the empty map,
on a present one it returns a map that reads back exactly the stored
top-level mapping; and `Get` never changes the stored states, so whatever
the caller does with the returned copy, subsequent `Get`/`Merge` calls for
the thread observe the same state. -/
theorem claim_C8_get_copy (m : StateManager) (t : String) (now : Nat) :
    (m.Get t now).2.states = m.states
    ∧ (lookupA m.states t = none → (m.Get t now).1 = [])
    ∧ (∀ g, lookupA m.states t = some g →
        ∀ k, lookupA (m.Get t now).1 k = govGet g k) := by
  refine ⟨?_, ?_, ?_⟩
  · unfold StateManager.Get
    cases h : lookupA m.states t <;> simp
  · intro h
    unfold StateManager.Get
    rw [h]
  · intro g hg k
    unfold StateManager.Get
    rw [hg]
    simp only
    rw [lookupA_copyA]

/-- Witness for C8 at a concrete store holding `{a:1}` for thread `t1`:
the returned copy reads back the stored value and the states are
untouched. -/
theorem claim_C8_witness :
    lookupA ((StateManager.mk [("t1", [("a", JValue.num 1)])] []).Get "t1" 5).1 "a"
      = govGet [("a", JValue.num 1)] "a"
    ∧ ((StateManager.mk [("t1", [("a", JValue.num 1)])] []).Get "t1" 5).2.states
      = [("t1", [("a", JValue.num 1)])] := by
  constructor
  · exact (claim_C8_get_copy (StateManager.mk [("t1", [("a", JValue.num 1)])] []) "t1" 5).2.2
      [("a", JValue.num 1)] rfl "a"
  · exact (claim_C8_get_copy (StateManager.mk [("t1", [("a", JValue.num 1)])] []) "t1" 5).1

/-- C4: a request with an empty messages list produces exactly one event —
a `StateSnapshot` of the state obtained by merging the incoming state into
the thread's stored state (the merge is performed, and persisted, before
the snapshot) — and no other event, on both the SSE handler and the shared
protocol orchestrator. -/
theorem claim_C4_empty_messages_snapshot (env : RunnerEnv) (m : StateManager)
    (input : RunAgentInput) (now : Nat) (h : input.messages = []) :
    handleAgentRequest env m input now
      = ([PEvent.stateSnapshot (m.Merge (resolveThreadID input) input.state now).1],
         (m.Merge (resolveThreadID input) input.state now).2)
    ∧ runAgentProtocol env m input now
      = ([PEvent.stateSnapshot (m.Merge (resolveThreadID input) input.state now).1],
         (m.Merge (resolveThreadID input) input.state now).2)
    ∧ ∀ k, lookupA (m.Merge (resolveThreadID input) input.state now).1 k
        = (govGet input.state k).or
            (govGet ((lookupA m.states (resolveThreadID input)).getD []) k) := by
  obtain ⟨tid, rid, st, msgs⟩ := input
  simp only [RunAgentInput.messages] at h
  subst h
  refine ⟨?_, ?_, fun k => merge_result_lookup m _ st now k⟩
  · simp [handleAgentRequest, validateMessages, validateMessagesFrom]
  · simp [runAgentProtocol]

/-- Witness for C4, scenario C of the spec: prior state `{x:1}` for `t1`,
incoming `{y:2}`, empty messages: one snapshot event whose state carries
both keys. -/
theorem claim_C4_witness :
    (handleAgentRequest exEnvOk (NewStateManager.Merge "t1" [("x", JValue.num 1)] 0).2
        ⟨"t1", "r1", [("y", JValue.num 2)], []⟩ 1).1
      = [PEvent.stateSnapshot
          ((NewStateManager.Merge "t1" [("x", JValue.num 1)] 0).2.Merge "t1"
            [("y", JValue.num 2)] 1).1]
    ∧ lookupA ((NewStateManager.Merge "t1" [("x", JValue.num 1)] 0).2.Merge "t1"
        [("y", JValue.num 2)] 1).1 "x" = some (JValue.num 1)
    ∧ lookupA ((NewStateManager.Merge "t1" [("x", JValue.num 1)] 0).2.Merge "t1"
        [("y", JValue.num 2)] 1).1 "y" = some (JValue.num 2) := by
  refine ⟨?_, by rfl, by rfl⟩
  have h := (claim_C4_empty_messages_snapshot exEnvOk
    (NewStateManager.Merge "t1" [("x", JValue.num 1)] 0).2
    ⟨"t1", "r1", [("y", JValue.num 2)], []⟩ 1 rfl).1
  exact congrArg Prod.fst h

/-- C5 (amended): when message validation fails, the SSE handler emits
exactly one `RunError` and nothing else, while the Connect RPC handler
emits *no* protocol event and rejects the request with a transport-level
error; on both transports the state store is untouched and the external
runner environment is never consulted (no run is attempted). -/
theorem claim_C5_validation_amended (env : RunnerEnv) (m : StateManager)
    (input : RunAgentInput) (now : Nat) (e : String)
    (h : validateMessages input.messages = some e) :
    handleAgentRequest env m input now
      = ([PEvent.runError ("Invalid messages: " ++ e) (resolveRunID input)], m)
    ∧ connectRunAgent env m input now
      = (⟨[], some ("validation failed: " ++ e)⟩, m)
    ∧ (∀ env2, handleAgentRequest env2 m input now = handleAgentRequest env m input now)
    ∧ (∀ env2, connectRunAgent env2 m input now = connectRunAgent env m input now) := by
  have h1 : ∀ env0, handleAgentRequest env0 m input now
      = ([PEvent.runError ("Invalid messages: " ++ e) (resolveRunID input)], m) := by
    intro env0
    simp [handleAgentRequest, h]
  have h2 : ∀ env0, connectRunAgent env0 m input now
      = (⟨[], some ("validation failed: " ++ e)⟩, m) := by
    intro env0
    simp [connectRunAgent, inputValidate, h]
  exact ⟨h1 env, h2 env, fun env2 => (h1 env2).trans (h1 env).symm,
    fun env2 => (h2 env2).trans (h2 env).symm⟩

/-- Counterexample for C5 as stated: on the Connect RPC transport a
request with an invalid role fails validation yet zero `RunError` events
(indeed zero events at all) are emitted — the failure is a transport-level
error instead. -/
theorem claim_C5_counterexample :
    (inputValidate ⟨"t1", "r1", [], [exMsgBadRole]⟩).isSome = true
    ∧ (connectRunAgent exEnvOk NewStateManager ⟨"t1", "r1", [], [exMsgBadRole]⟩ 0).1.sent.countP
        PEvent.isRunError = 0
    ∧ (connectRunAgent exEnvOk NewStateManager ⟨"t1", "r1", [], [exMsgBadRole]⟩ 0).1.sent = []
    ∧ ((connectRunAgent exEnvOk NewStateManager ⟨"t1", "r1", [], [exMsgBadRole]⟩ 0).1.transportError).isSome
        = true := by
  refine ⟨by rfl, by rfl, by rfl, by rfl⟩

/-- Witness for C5 (amended) at the invalid-role message: the SSE handler
sends exactly the one validation `RunError`. -/
theorem claim_C5_witness :
    handleAgentRequest exEnvOk NewStateManager ⟨"t1", "r1", [], [exMsgBadRole]⟩ 0
      = ([PEvent.runError
            ("Invalid messages: message at index 0 has invalid \x27role\x27 value: robot")
            "r1"], NewStateManager) := by
  have h := (claim_C5_validation_amended exEnvOk NewStateManager
    ⟨"t1", "r1", [], [exMsgBadRole]⟩ 0
    "message at index 0 has invalid \x27role\x27 value: robot" (by rfl)).1
  exact h

/-- C9: the id check of `ValidateMessages` only enforces presence,
non-nil-ness and inequality with the empty string — any non-nil, non-`""`
value (a number, a boolean, …) passes, in contrast to the role field,
which is rejected whenever it is not a string. -/
theorem claim_C9_id_type_not_checked (v : JValue)
    (h1 : v ≠ JValue.null) (h2 : v ≠ JValue.str "") :
    validateMessages [[("id", v), ("role", JValue.str "tool")]] = none
    ∧ validateMessages [[("id", JValue.str "m1"), ("role", JValue.num 3)]]
        = some "message at index 0 has invalid \x27role\x27 type (expected string)" := by
  constructor
  · have hfalse : isNilOrEmptyString v = false := by
      cases v with
      | null => exact absurd rfl h1
      | str s =>
          by_cases hs : s = ""
          · subst hs; exact absurd rfl h2
          · simp [isNilOrEmptyString, hs]
      | bool b => rfl
      | num n => rfl
      | arr l => rfl
      | obj f => rfl
    simp [validateMessages, validateMessagesFrom, validateMessageAt, lookupA_cons,
      hfalse, validRoles, lookupA]
  · rfl

/-- Witness for C9: a numeric id passes validation. -/
theorem claim_C9_witness :
    validateMessages [[("id", JValue.num 42), ("role", JValue.str "tool")]] = none
    ∧ validateMessages [[("id", JValue.str "m1"), ("role", JValue.num 3)]]
        = some "message at index 0 has invalid \x27role\x27 type (expected string)" :=
  claim_C9_id_type_not_checked (JValue.num 42) (by simp) (by simp)

/-- C10: a function call with an empty runner id records its generated
protocol id under the empty-string key of the correlation table, and a
later function response that also carries an empty id resolves to that
same generated id — emitting its `ToolCallResult`/`ToolCallEnd` with the
call's protocol id and generating no fresh orphan id. -/
theorem claim_C10_empty_id_correlation (mid : String) (s : TransState)
    (nm : String) (args : Option GoMap) (resp : Option GoMap) :
    lookupA (translatePart mid s ⟨"", some ⟨"", nm, args⟩, none⟩).1.toolCallMap ""
      = some (GenerateToolCallID s.nextGenId)
    ∧ (translatePart mid (translatePart mid s ⟨"", some ⟨"", nm, args⟩, none⟩).1
         ⟨"", none, some ⟨"", resp⟩⟩).2
        = [PEvent.toolCallResult mid (GenerateToolCallID s.nextGenId)
             (match resp with
              | none => ""
              | some r => JValue.render (JValue.obj r)),
           PEvent.toolCallEnd (GenerateToolCallID s.nextGenId)]
    ∧ (translatePart mid (translatePart mid s ⟨"", some ⟨"", nm, args⟩, none⟩).1
         ⟨"", none, some ⟨"", resp⟩⟩).1.nextGenId
        = (translatePart mid s ⟨"", some ⟨"", nm, args⟩, none⟩).1.nextGenId := by
  cases args <;> cases resp <;>
    simp [translatePart, lookupA_setA]

theorem translatePart_counts (mid : String) (s : TransState) (p : ADKPart) :
    (translatePart mid s p).2.countP PEvent.isRunError = 0
    ∧ (translatePart mid s p).2.countP PEvent.isRunFinished = 0
    ∧ (translatePart mid s p).2.countP PEvent.isRunStarted = 0
    ∧ (translatePart mid s p).2.countP PEvent.isStateSnapshot = 0
    ∧ (translatePart mid s p).2.countP PEvent.isToolCallEnd
        = (if p.functionResponse.isSome then 1 else 0) := by
  obtain ⟨tx, fc, fr⟩ := p
  rcases fc with _ | ⟨fid, fnm, fargs⟩
  · rcases fr with _ | ⟨rid, rresp⟩ <;> by_cases htx : tx ≠ "" <;>
      simp [translatePart, htx, PEvent.isRunError, PEvent.isRunFinished,
        PEvent.isRunStarted, PEvent.isStateSnapshot, PEvent.isToolCallEnd,
        List.countP_cons, List.countP_append]
  · rcases fargs with _ | a <;> rcases fr with _ | ⟨rid, rresp⟩ <;> by_cases htx : tx ≠ "" <;>
      simp [translatePart, htx, PEvent.isRunError, PEvent.isRunFinished,
        PEvent.isRunStarted, PEvent.isStateSnapshot, PEvent.isToolCallEnd,
        List.countP_cons, List.countP_append]

theorem translateParts_counts (mid : String) :
    ∀ (ps : List ADKPart) (s : TransState),
      (translateParts mid s ps).2.countP PEvent.isRunError = 0
      ∧ (translateParts mid s ps).2.countP PEvent.isRunFinished = 0
      ∧ (translateParts mid s ps).2.countP PEvent.isRunStarted = 0
      ∧ (translateParts mid s ps).2.countP PEvent.isStateSnapshot = 0
      ∧ (translateParts mid s ps).2.countP PEvent.isToolCallEnd
          = ps.countP (fun p => p.functionResponse.isSome) := by
  intro ps
  induction ps with
  | nil => intro s; simp [translateParts]
  | cons p rest ih =>
      intro s
      have h1 := translatePart_counts mid s p
      have h2 := ih (translatePart mid s p).1
      simp only [translateParts]
      rcases htp : translatePart mid s p with ⟨s1, evs1⟩
      rw [htp] at h1 h2
      rcases hts : translateParts mid s1 rest with ⟨s2, evs2⟩
      rw [hts] at h2
      simp only at h1 h2
      simp [List.countP_append, List.countP_cons, h1.1, h1.2.1, h1.2.2.1,
        h1.2.2.2.1, h1.2.2.2.2, h2.1, h2.2.1, h2.2.2.1, h2.2.2.2.1, h2.2.2.2.2,
        Nat.add_comm]

theorem translateADKEvent_counts (mid : String) (s : TransState) (e : ADKEvent) :
    (translateADKEvent mid s e).2.countP PEvent.isRunError = 0
    ∧ (translateADKEvent mid s e).2.countP PEvent.isRunFinished = 0 := by
  unfold translateADKEvent
  cases hc : e.content with
  | none => simp
  | some c =>
      have h := translateParts_counts mid c.parts s
      exact ⟨h.1, h.2.1⟩

theorem consumeADK_counts (mid : String) :
    ∀ (l : List (Option ADKEvent)) (s : TransState),
      (consumeADK mid s l).2.countP PEvent.isRunError = 0
      ∧ (consumeADK mid s l).2.countP PEvent.isRunFinished = 0 := by
  intro l
  induction l with
  | nil => intro s; simp [consumeADK]
  | cons h rest ih =>
      intro s
      cases h with
      | none => simpa [consumeADK] using ih s
      | some e =>
          have h1 := translateADKEvent_counts mid s e
          have h2 := ih (translateADKEvent mid s e).1
          simp only [consumeADK]
          rcases hte : translateADKEvent mid s e with ⟨s1, evs1⟩
          rw [hte] at h1 h2
          simp only at h1 h2
          by_cases hf : e.isFinalResponse
          · simp [hf, h1.1, h1.2]
          · rcases hcr : consumeADK mid s1 rest with ⟨s2, evs2⟩
            rw [hcr] at h2
            simp only at h2
            simp [hf, List.countP_append, h1.1, h1.2, h2.1, h2.2]

theorem runAgentEvents_counts (env : RunnerEnv) (msgs : List GoMap) (rid mid : String) :
    (runAgentEvents env msgs rid mid).countP PEvent.isRunFinished = 0
    ∧ (runAgentEvents env msgs rid mid).countP PEvent.isRunError ≤ 1 := by
  obtain ⟨rne, se, adk⟩ := env
  unfold runAgentEvents
  cases rne with
  | some e =>
      simp [PEvent.isRunError, PEvent.isRunFinished, List.countP_cons]
  | none =>
  cases se with
  | some e =>
      simp [PEvent.isRunError, PEvent.isRunFinished, List.countP_cons]
  | none =>
  cases findLastUserLoop msgs with
  | none =>
      simp [PEvent.isRunError, PEvent.isRunFinished, List.countP_cons]
  | some c =>
      have h := consumeADK_counts mid adk initialTransState
      rcases hc : consumeADK mid initialTransState adk with ⟨sC, evsC⟩
      rw [hc] at h
      simp only at h
      by_cases hb : sC.responseBuilder = ""
      · simp [hc, hb, List.countP_append, List.countP_cons, h.1, h.2,
          PEvent.isRunError, PEvent.isRunFinished]
      · simp [hc, hb, h.1, h.2]

/-- C1 (amended): every run (non-empty messages) ends with exactly one
`RunFinished` as its final event and carries at most one `RunError`;
adapter failures (runner creation, session, missing user message) are
emitted as a single in-band `RunError` *before* the unconditional
`TextMessageEnd`/`RunFinished` tail, so an erroring run's sequence
contains both a `RunError` and a `RunFinished` rather than ending with a
lone `RunError`. -/
theorem claim_C1_terminal_events (env : RunnerEnv) (mgr : StateManager)
    (input : RunAgentInput) (now : Nat) (h : input.messages ≠ []) :
    ((runAgentProtocol env mgr input now).1).getLast?
        = some (PEvent.runFinished (resolveThreadID input) (resolveRunID input))
    ∧ ((runAgentProtocol env mgr input now).1).countP PEvent.isRunFinished = 1
    ∧ ((runAgentProtocol env mgr input now).1).countP PEvent.isRunError ≤ 1
    ∧ (env.runnerNewError = none → env.sessionError = none →
        findLastUserLoop input.messages = none →
        (runAgentProtocol env mgr input now).1
          = [PEvent.runStarted (resolveThreadID input) (resolveRunID input),
             PEvent.textMessageStart GenerateMessageID "assistant",
             PEvent.runError "no valid user message found" (resolveRunID input),
             PEvent.textMessageEnd GenerateMessageID,
             PEvent.runFinished (resolveThreadID input) (resolveRunID input)]) := by
  have hlen : ¬ input.messages.length = 0 := by
    simpa [List.length_eq_zero] using h
  have hevs : (runAgentProtocol env mgr input now).1
      = [PEvent.runStarted (resolveThreadID input) (resolveRunID input),
         PEvent.textMessageStart GenerateMessageID "assistant"]
        ++ runAgentEvents env input.messages (resolveRunID input) GenerateMessageID
        ++ [PEvent.textMessageEnd GenerateMessageID,
            PEvent.runFinished (resolveThreadID input) (resolveRunID input)] := by
    unfold runAgentProtocol
    rcases hm : mgr.Merge (resolveThreadID input) input.state now with ⟨ms, m2⟩
    simp [hm, hlen]
  have hcounts := runAgentEvents_counts env input.messages (resolveRunID input)
    GenerateMessageID
  refine ⟨?_, ?_, ?_, ?_⟩
  · rw [hevs]
    rw [show ∀ (l₁ l₂ : List PEvent) (a b : PEvent),
        l₁ ++ l₂ ++ [a, b] = (l₁ ++ l₂ ++ [a]) ++ [b] by intro l₁ l₂ a b; simp]
    exact List.getLast?_concat _
  · rw [hevs]
    simp [List.countP_append, List.countP_cons, hcounts.1,
      PEvent.isRunFinished]
  · rw [hevs]
    simpa [List.countP_append, List.countP_cons, PEvent.isRunError] using hcounts.2
  · intro h1 h2 h3
    rw [hevs]
    obtain ⟨rne, se, adk⟩ := env
    simp only at h1 h2
    subst h1
    subst h2
    simp [runAgentEvents, h3]

/-- Counterexample for C1 as stated: a validated request whose messages
contain no eligible user turn yields a run whose event stream contains
*both* a `RunError` (in-band, from the adapter) and a `RunFinished` (the
handler's unconditional tail) — the SSE handler path shown here. -/
theorem claim_C1_counterexample :
    ((handleAgentRequest exEnvOk NewStateManager
        ⟨"t1", "r1", [], [exMsgAssistant]⟩ 0).1.countP PEvent.isRunError = 1)
    ∧ ((handleAgentRequest exEnvOk NewStateManager
        ⟨"t1", "r1", [], [exMsgAssistant]⟩ 0).1.countP PEvent.isRunFinished = 1) :=
  ⟨by rfl, by rfl⟩

/-- Witness for C1 (amended) at a concrete erroring run: the final event
is `RunFinished` and the error-path shape holds. -/
theorem claim_C1_witness :
    ((runAgentProtocol exEnvOk NewStateManager
        ⟨"t1", "r1", [], [exMsgAssistant]⟩ 0).1).getLast?
      = some (PEvent.runFinished "t1" "r1")
    ∧ (runAgentProtocol exEnvOk NewStateManager
        ⟨"t1", "r1", [], [exMsgAssistant]⟩ 0).1
      = [PEvent.runStarted "t1" "r1",
         PEvent.textMessageStart GenerateMessageID "assistant",
         PEvent.runError "no valid user message found" "r1",
         PEvent.textMessageEnd GenerateMessageID,
         PEvent.runFinished "t1" "r1"] := by
  have h := claim_C1_terminal_events exEnvOk NewStateManager
    ⟨"t1", "r1", [], [exMsgAssistant]⟩ 0 (by simp)
  exact ⟨h.1, h.2.2.2 rfl rfl (by rfl)⟩

theorem pickUserContent_spec (msg : GoMap) :
    pickUserContent msg
      = (if isEligibleUserMessage msg then
          match lookupA msg "content" with
          | some (JValue.str c) => some c
          | _ => none
        else none) := by
  unfold pickUserContent isEligibleUserMessage
  cases hr : lookupA msg "role" with
  | none => simp
  | some rv =>
      cases rv with
      | null => simp
      | bool b => simp
      | num n => simp
      | arr l => simp
      | obj f => simp
      | str r =>
          by_cases hru : r = "user"
          · subst hru
            cases hc : lookupA msg "content" with
            | none => simp
            | some cv =>
                cases cv with
                | null => simp
                | bool b => simp
                | num n => simp
                | arr l => simp
                | obj f => simp
                | str c => by_cases hce : c = "" <;> simp [hce]
          · simp [hru]

theorem eligible_extract (msg : GoMap) (h : isEligibleUserMessage msg = true) :
    ∃ c, (match lookupA msg "content" with
          | some (JValue.str c) => some c
          | _ => none) = some c := by
  unfold isEligibleUserMessage at h
  rcases Bool.and_eq_true_iff.mp h with ⟨-, h2⟩
  cases hc : lookupA msg "content" with
  | none => rw [hc] at h2; simp at h2
  | some cv =>
      rw [hc] at h2
      cases cv with
      | str c => exact ⟨c, rfl⟩
      | null => simp at h2
      | bool b => simp at h2
      | num n => simp at h2
      | arr l => simp at h2
      | obj f => simp at h2

/-- C7: the user-turn scan of `RunAgent` selects exactly the content of
the last message whose role is the string `"user"` and whose content is a
non-empty string, skipping messages with other roles or non-string/empty
content; when no such message exists, the adapter's stream is the single
`RunError "no valid user message found"`. -/
theorem claim_C7_last_user_selection (msgs : List GoMap) :
    findLastUserLoop msgs = specLastUserContent msgs
    ∧ ∀ (env : RunnerEnv) (rid mid : String),
        env.runnerNewError = none → env.sessionError = none →
        findLastUserLoop msgs = none →
        runAgentEvents env msgs rid mid
          = [PEvent.runError "no valid user message found" rid] := by
  constructor
  · induction msgs with
    | nil => rfl
    | cons m rest ih =>
        unfold findLastUserLoop specLastUserContent
        rw [List.reverse_cons, List.find?_append]
        cases hrest : findLastUserLoop rest with
        | some c =>
            have hspec : specLastUserContent rest = some c := ih ▸ hrest
            unfold specLastUserContent at hspec
            rcases Option.bind_eq_some.mp hspec with ⟨msgF, hfind, hext⟩
            rw [hfind]
            simpa [Option.or] using hext.symm
        | none =>
            have hspec : specLastUserContent rest = none := ih ▸ hrest
            have hfind : rest.reverse.find? isEligibleUserMessage = none := by
              cases hf : rest.reverse.find? isEligibleUserMessage with
              | none => rfl
              | some msgF =>
                  have helig : isEligibleUserMessage msgF := List.find?_some hf
                  obtain ⟨c, hext⟩ := eligible_extract msgF helig
                  unfold specLastUserContent at hspec
                  rw [hf] at hspec
                  simp [hext] at hspec
            rw [hfind]
            by_cases hm : isEligibleUserMessage m
            · rw [List.find?_cons_of_pos _ hm]
              simp [Option.or, pickUserContent_spec, hm]
            · rw [List.find?_cons_of_neg _ (by simpa using hm)]
              simp [Option.or, pickUserContent_spec, hm]
  · intro env rid mid h1 h2 h3
    obtain ⟨rne, se, adk⟩ := env
    simp only at h1 h2
    subst h1
    subst h2
    simp [runAgentEvents, h3]

/-- Witness for C7: on `[assistant, user]` the loop and the spec-side
selection agree (picking the user turn), and on `[assistant]` alone the
adapter stream is the single no-user-message `RunError`. -/
theorem claim_C7_witness :
    findLastUserLoop [exMsgAssistant, exMsgUser]
      = specLastUserContent [exMsgAssistant, exMsgUser]
    ∧ runAgentEvents exEnvOk [exMsgAssistant] "r1" "mid1"
      = [PEvent.runError "no valid user message found" "r1"] :=
  ⟨(claim_C7_last_user_selection [exMsgAssistant, exMsgUser]).1,
   (claim_C7_last_user_selection [exMsgAssistant]).2 exEnvOk "r1" "mid1" rfl rfl (by rfl)⟩

theorem countP_content_eq_deltas_length (l : List PEvent) :
    l.countP PEvent.isTextMessageContent = (l.filterMap contentDelta).length := by
  induction l with
  | nil => rfl
  | cons e rest ih =>
      cases e <;> simp [List.countP_cons, contentDelta, PEvent.isTextMessageContent, ih]

theorem translatePart_acc (mid : String) (s : TransState) (p : ADKPart) :
    ((translatePart mid s p).1.responseBuilder).length
      = s.responseBuilder.length
        + ((((translatePart mid s p).2.filterMap contentDelta).map String.length).sum)
    ∧ ∀ d ∈ (translatePart mid s p).2.filterMap contentDelta, d ≠ "" := by
  obtain ⟨tx, fc, fr⟩ := p
  rcases fc with _ | ⟨fid, fnm, fargs⟩
  · rcases fr with _ | ⟨rid, rresp⟩ <;> by_cases htx : tx ≠ "" <;>
      simp [translatePart, htx, contentDelta, String.length_append]
  · rcases fargs with _ | a <;> rcases fr with _ | ⟨rid, rresp⟩ <;> by_cases htx : tx ≠ "" <;>
      simp [translatePart, htx, contentDelta, String.length_append]

theorem translateParts_acc (mid : String) :
    ∀ (ps : List ADKPart) (s : TransState),
      ((translateParts mid s ps).1.responseBuilder).length
        = s.responseBuilder.length
          + ((((translateParts mid s ps).2.filterMap contentDelta).map String.length).sum)
      ∧ ∀ d ∈ (translateParts mid s ps).2.filterMap contentDelta, d ≠ "" := by
  intro ps
  induction ps with
  | nil => intro s; simp [translateParts]
  | cons p rest ih =>
      intro s
      have h1 := translatePart_acc mid s p
      have h2 := ih (translatePart mid s p).1
      simp only [translateParts]
      rcases htp : translatePart mid s p with ⟨s1, evs1⟩
      rw [htp] at h1 h2
      rcases hts : translateParts mid s1 rest with ⟨s2, evs2⟩
      rw [hts] at h2
      simp only at h1 h2
      constructor
      · simp [List.filterMap_append, h2.1, h1.1, Nat.add_assoc]
      · intro d hd
        have hd' : (∃ a ∈ evs1, contentDelta a = some d)
            ∨ ∃ a ∈ evs2, contentDelta a = some d := by
          simpa [List.filterMap_append] using hd
        rcases hd' with ⟨a, ha, hda⟩ | ⟨a, ha, hda⟩
        · exact h1.2 d (List.mem_filterMap.mpr ⟨a, ha, hda⟩)
        · exact h2.2 d (List.mem_filterMap.mpr ⟨a, ha, hda⟩)

theorem translateADKEvent_acc (mid : String) (s : TransState) (e : ADKEvent) :
    ((translateADKEvent mid s e).1.responseBuilder).length
      = s.responseBuilder.length
        + ((((translateADKEvent mid s e).2.filterMap contentDelta).map String.length).sum)
    ∧ ∀ d ∈ (translateADKEvent mid s e).2.filterMap contentDelta, d ≠ "" := by
  unfold translateADKEvent
  cases hc : e.content with
  | none => simp
  | some c => exact translateParts_acc mid c.parts s

theorem consumeADK_acc (mid : String) :
    ∀ (l : List (Option ADKEvent)) (s : TransState),
      ((consumeADK mid s l).1.responseBuilder).length
        = s.responseBuilder.length
          + ((((consumeADK mid s l).2.filterMap contentDelta).map String.length).sum)
      ∧ ∀ d ∈ (consumeADK mid s l).2.filterMap contentDelta, d ≠ "" := by
  intro l
  induction l with
  | nil => intro s; simp [consumeADK]
  | cons h rest ih =>
      intro s
      cases h with
      | none => simpa [consumeADK] using ih s
      | some e =>
          have h1 := translateADKEvent_acc mid s e
          have h2 := ih (translateADKEvent mid s e).1
          simp only [consumeADK]
          rcases hte : translateADKEvent mid s e with ⟨s1, evs1⟩
          rw [hte] at h1 h2
          simp only at h1 h2
          by_cases hf : e.isFinalResponse
          · simpa [hf] using h1
          · rcases hcr : consumeADK mid s1 rest with ⟨s2, evs2⟩
            rw [hcr] at h2
            simp only at h2
            constructor
            · simp [hf, List.filterMap_append, h2.1, h1.1, Nat.add_assoc]
            · intro d hd
              have hd' : (∃ a ∈ evs1, contentDelta a = some d)
                  ∨ ∃ a ∈ evs2, contentDelta a = some d := by
                simpa [hf, List.filterMap_append] using hd
              rcases hd' with ⟨a, ha, hda⟩ | ⟨a, ha, hda⟩
              · exact h1.2 d (List.mem_filterMap.mpr ⟨a, ha, hda⟩)
              · exact h2.2 d (List.mem_filterMap.mpr ⟨a, ha, hda⟩)

/-- C6: on the success path (runner and session created, an eligible user
message found), a run consumed to completion whose text accumulator is
empty — equivalently, one that emitted no `TextMessageContent` — gets
exactly one appended `TextMessageContent` carrying the fallback delta, a
run whose accumulator is non-empty gets none appended, and in either case
the run yields at least one content event. -/
theorem claim_C6_default_message (env : RunnerEnv) (msgs : List GoMap)
    (rid mid c : String)
    (h1 : env.runnerNewError = none) (h2 : env.sessionError = none)
    (h3 : findLastUserLoop msgs = some c) :
    ((consumeADK mid initialTransState env.adkEvents).1.responseBuilder = "" →
      runAgentEvents env msgs rid mid
        = (consumeADK mid initialTransState env.adkEvents).2
            ++ [PEvent.textMessageContent mid defaultNoResponseMsg]
      ∧ ((consumeADK mid initialTransState env.adkEvents).2).countP
          PEvent.isTextMessageContent = 0
      ∧ (runAgentEvents env msgs rid mid).countP PEvent.isTextMessageContent = 1)
    ∧ ((consumeADK mid initialTransState env.adkEvents).1.responseBuilder ≠ "" →
        runAgentEvents env msgs rid mid
          = (consumeADK mid initialTransState env.adkEvents).2)
    ∧ 1 ≤ (runAgentEvents env msgs rid mid).countP PEvent.isTextMessageContent := by
  obtain ⟨rne, se, adk⟩ := env
  simp only at h1 h2 h3
  subst h1
  subst h2
  have hacc := consumeADK_acc mid adk initialTransState
  have hrun : runAgentEvents ⟨none, none, adk⟩ msgs rid mid
      = (if (consumeADK mid initialTransState adk).1.responseBuilder = "" then
          (consumeADK mid initialTransState adk).2
            ++ [PEvent.textMessageContent mid defaultNoResponseMsg]
        else (consumeADK mid initialTransState adk).2) := by
    unfold runAgentEvents
    rw [h3]
  rcases hc : consumeADK mid initialTransState adk with ⟨sC, evsC⟩
  rw [hc] at hrun hacc
  simp only at hrun hacc
  have hinit : (initialTransState.responseBuilder).length = 0 := rfl
  rw [hinit] at hacc
  by_cases hb : sC.responseBuilder = ""
  · have hsum : ((evsC.filterMap contentDelta).map String.length).sum = 0 := by
      have := hacc.1
      rw [hb] at this
      simpa using this.symm
    have hdeltas : evsC.filterMap contentDelta = [] := by
      cases hd : evsC.filterMap contentDelta with
      | nil => rfl
      | cons d ds =>
          have hdne : d ≠ "" := hacc.2 d (hd ▸ List.mem_cons_self d ds)
          have hlen : d.length = 0 := by
            have hz := hsum
            rw [hd] at hz
            simp only [List.map_cons, List.sum_cons] at hz
            omega
          exact absurd (String.ext (List.length_eq_zero.mp hlen)) hdne
    have hcount0 : evsC.countP PEvent.isTextMessageContent = 0 := by
      rw [countP_content_eq_deltas_length, hdeltas]
      rfl
    refine ⟨fun _ => ⟨by simpa [hb] using hrun, hcount0, ?_⟩, fun hne => absurd hb hne, ?_⟩
    · rw [hrun]
      simp [hb, List.countP_append, List.countP_cons, hcount0,
        PEvent.isTextMessageContent]
    · rw [hrun]
      simp [hb, List.countP_append, List.countP_cons, hcount0,
        PEvent.isTextMessageContent]
  · have hpos : 0 < ((evsC.filterMap contentDelta).map String.length).sum := by
      rcases Nat.eq_zero_or_pos ((evsC.filterMap contentDelta).map String.length).sum
        with hz | hp
      · exfalso
        apply hb
        apply String.ext
        apply List.length_eq_zero.mp
        have := hacc.1
        rw [hz] at this
        simpa using this
      · exact hp
    have hne : evsC.filterMap contentDelta ≠ [] := by
      intro hnil
      rw [hnil] at hpos
      simp at hpos
    have hcountpos : 1 ≤ evsC.countP PEvent.isTextMessageContent := by
      rw [countP_content_eq_deltas_length]
      rcases List.exists_cons_of_ne_nil hne with ⟨d, ds, hd⟩
      rw [hd]
      simp
    refine ⟨fun habs => absurd habs hb, fun _ => by simpa [hb] using hrun, ?_⟩
    rw [hrun]
    simpa [hb] using hcountpos

/-- Witness for C6: a runner that finalizes with no parts yields the
fallback content event, exactly once. -/
theorem claim_C6_witness :
    runAgentEvents ⟨none, none, [some (ADKEvent.mk (some ⟨[]⟩) true)]⟩
        [exMsgUser] "r1" "mid1"
      = (consumeADK "mid1" initialTransState [some (ADKEvent.mk (some ⟨[]⟩) true)]).2
          ++ [PEvent.textMessageContent "mid1" defaultNoResponseMsg]
    ∧ (runAgentEvents ⟨none, none, [some (ADKEvent.mk (some ⟨[]⟩) true)]⟩
        [exMsgUser] "r1" "mid1").countP PEvent.isTextMessageContent = 1 := by
  have h := claim_C6_default_message ⟨none, none, [some (ADKEvent.mk (some ⟨[]⟩) true)]⟩
    [exMsgUser] "r1" "mid1" "hi" rfl rfl (by rfl)
  exact ⟨(h.1 (by rfl)).1, (h.1 (by rfl)).2.2⟩

theorem translateParts_cons_eq (mid : String) (s : TransState) (p : ADKPart)
    (ps : List ADKPart) :
    translateParts mid s (p :: ps)
      = ((translateParts mid (translatePart mid s p).1 ps).1,
         (translatePart mid s p).2 ++ (translateParts mid (translatePart mid s p).1 ps).2) :=
  rfl

theorem translateParts_append (mid : String) :
    ∀ (ps qs : List ADKPart) (s : TransState),
      translateParts mid s (ps ++ qs)
        = ((translateParts mid (translateParts mid s ps).1 qs).1,
           (translateParts mid s ps).2
             ++ (translateParts mid (translateParts mid s ps).1 qs).2) := by
  intro ps
  induction ps with
  | nil => intro qs s; simp [translateParts]
  | cons p rest ih =>
      intro qs s
      rw [List.cons_append, translateParts_cons_eq, ih, translateParts_cons_eq]
      simp [List.append_assoc]

theorem translatePart_map_preserve (mid : String) (s : TransState) (p : ADKPart)
    (r : String) (hr : r ≠ "") (h : lookupA s.toolCallMap r = some r) :
    lookupA (translatePart mid s p).1.toolCallMap r = some r := by
  obtain ⟨tx, fc, fr⟩ := p
  rcases fc with _ | ⟨fid, fnm, fargs⟩
  · rcases fr with _ | ⟨rid, rresp⟩ <;> by_cases htx : tx ≠ "" <;>
      simpa [translatePart, htx] using h
  · have hset : lookupA (setA s.toolCallMap fid
        (if fid = "" then GenerateToolCallID s.nextGenId else fid)) r = some r := by
      rw [lookupA_setA]
      by_cases hrf : r = fid
      · subst hrf
        simp [hr, h]
      · simp [hrf, h]
    rcases fargs with _ | a <;> rcases fr with _ | ⟨rid, rresp⟩ <;> by_cases htx : tx ≠ "" <;>
      simpa [translatePart, htx] using hset

theorem translateParts_map_preserve (mid : String) :
    ∀ (ps : List ADKPart) (s : TransState) (r : String), r ≠ "" →
      lookupA s.toolCallMap r = some r →
      lookupA (translateParts mid s ps).1.toolCallMap r = some r := by
  intro ps
  induction ps with
  | nil => intro s r _ h; simpa [translateParts] using h
  | cons p rest ih =>
      intro s r hr h
      rw [translateParts_cons_eq]
      exact ih (translatePart mid s p).1 r hr (translatePart_map_preserve mid s p r hr h)

theorem translatePart_call_start (mid : String) (s : TransState) (p : ADKPart)
    (fcv : FunctionCall) (hp : p.functionCall = some fcv) (hr : fcv.id ≠ "") :
    PEvent.toolCallStart fcv.id fcv.name ∈ (translatePart mid s p).2
    ∧ lookupA (translatePart mid s p).1.toolCallMap fcv.id = some fcv.id := by
  obtain ⟨tx, fc, fr⟩ := p
  simp only at hp
  subst hp
  obtain ⟨fid, fnm, fargs⟩ := fcv
  simp only at hr
  have hset : lookupA (setA s.toolCallMap fid
      (if fid = "" then GenerateToolCallID s.nextGenId else fid)) fid
      = some fid := by
    rw [lookupA_setA]
    simp [hr]
  rcases fargs with _ | a <;> rcases fr with _ | ⟨rid, rresp⟩ <;> by_cases htx : tx ≠ "" <;>
    constructor <;>
      simp_all [translatePart, htx, hr]

theorem translatePart_response_end (mid : String) (s : TransState) (p : ADKPart)
    (frv : FunctionResponse) (hp : p.functionResponse = some frv)
    (hr : frv.id ≠ "") (h : lookupA s.toolCallMap frv.id = some frv.id) :
    PEvent.toolCallEnd frv.id ∈ (translatePart mid s p).2 := by
  obtain ⟨tx, fc, fr⟩ := p
  simp only at hp
  subst hp
  obtain ⟨rid, rresp⟩ := frv
  simp only at hr h
  rcases fc with _ | ⟨fid, fnm, fargs⟩
  · by_cases htx : tx ≠ "" <;> simp [translatePart, htx, h]
  · have hset : lookupA (setA s.toolCallMap fid
        (if fid = "" then GenerateToolCallID s.nextGenId else fid)) rid = some rid := by
      rw [lookupA_setA]
      by_cases hrf : rid = fid
      · subst hrf
        simp [hr, h]
      · simp [hrf, h]
    rcases fargs with _ | a <;> by_cases htx : tx ≠ "" <;>
      simp [translatePart, htx, hset, h]

/-- C2 (amended): in the translation of a run's consumed parts, the number
of `ToolCallEnd` events equals the number of function responses consumed —
tool calls are closed only by a function response, and the adapter does
not force-close outstanding calls at completion — and every
`ToolCallStart` whose runner-provided (non-empty) id receives a matching
function response later among the consumed parts is followed, after the
start, by a `ToolCallEnd` with the same id. -/
theorem claim_C2_tool_call_closure (mid : String) (s : TransState) :
    (∀ ps : List ADKPart,
      ((translateParts mid s ps).2).countP PEvent.isToolCallEnd
        = ps.countP (fun p => p.functionResponse.isSome))
    ∧ (∀ (ps₁ ps₂ ps₃ : List ADKPart) (pc pr : ADKPart) (fcv : FunctionCall)
        (frv : FunctionResponse),
        pc.functionCall = some fcv → pr.functionResponse = some frv →
        frv.id = fcv.id → fcv.id ≠ "" →
        ∃ l₁ l₂, (translateParts mid s (ps₁ ++ pc :: (ps₂ ++ pr :: ps₃))).2 = l₁ ++ l₂
          ∧ PEvent.toolCallStart fcv.id fcv.name ∈ l₁
          ∧ PEvent.toolCallEnd frv.id ∈ l₂) := by
  constructor
  · intro ps
    exact (translateParts_counts mid ps s).2.2.2.2
  · intro ps₁ ps₂ ps₃ pc pr fcv frv hpc hpr hid hne
    have hstart := translatePart_call_start mid (translateParts mid s ps₁).1 pc fcv hpc hne
    have hbind2 := translateParts_map_preserve mid ps₂
      (translatePart mid (translateParts mid s ps₁).1 pc).1 fcv.id hne hstart.2
    have hend := translatePart_response_end mid
      (translateParts mid (translatePart mid (translateParts mid s ps₁).1 pc).1 ps₂).1
      pr frv hpr (hid ▸ hne) (hid ▸ hbind2)
    refine ⟨(translateParts mid s ps₁).2
        ++ (translatePart mid (translateParts mid s ps₁).1 pc).2,
      (translateParts mid (translatePart mid (translateParts mid s ps₁).1 pc).1
        (ps₂ ++ pr :: ps₃)).2, ?_, ?_, ?_⟩
    · rw [translateParts_append, translateParts_cons_eq]
      simp [List.append_assoc]
    · simp [hstart.1]
    · rw [translateParts_append, translateParts_cons_eq]
      simp [hend]

/-- Counterexample for C2 as stated: a run consumed to its final item in
which the runner emits one function call (`fc1`) and never a function
response; the full SSE pipeline emits the `ToolCallStart{fc1}` but no
`ToolCallEnd{fc1}` anywhere in the run's event sequence. -/
theorem claim_C2_counterexample :
    ((handleAgentRequest ⟨none, none, [some exCallOnlyEvent]⟩ NewStateManager
        ⟨"t1", "r1", [], [exMsgUser]⟩ 0).1.countP (isToolCallStartFor "fc1") = 1)
    ∧ ((handleAgentRequest ⟨none, none, [some exCallOnlyEvent]⟩ NewStateManager
        ⟨"t1", "r1", [], [exMsgUser]⟩ 0).1.countP (isToolCallEndFor "fc1") = 0) :=
  ⟨by rfl, by rfl⟩

/-- Witness for C2 (amended): a call followed by its response produces a
start and a later end with the same id, and ends match responses
one-to-one. -/
theorem claim_C2_witness :
    (∃ l₁ l₂,
      (translateParts "mid1" initialTransState
          [⟨"", some ⟨"fc1", "search", none⟩, none⟩,
           ⟨"", none, some ⟨"fc1", some [("ok", JValue.bool true)]⟩⟩]).2 = l₁ ++ l₂
      ∧ PEvent.toolCallStart "fc1" "search" ∈ l₁
      ∧ PEvent.toolCallEnd "fc1" ∈ l₂)
    ∧ ((translateParts "mid1" initialTransState
          [⟨"", some ⟨"fc1", "search", none⟩, none⟩,
           ⟨"", none, some ⟨"fc1", some [("ok", JValue.bool true)]⟩⟩]).2).countP
        PEvent.isToolCallEnd = 1 := by
  constructor
  · have h := (claim_C2_tool_call_closure "mid1" initialTransState).2 [] [] []
      ⟨"", some ⟨"fc1", "search", none⟩, none⟩
      ⟨"", none, some ⟨"fc1", some [("ok", JValue.bool true)]⟩⟩
      ⟨"fc1", "search", none⟩ ⟨"fc1", some [("ok", JValue.bool true)]⟩
      rfl rfl rfl (by decide)
    simpa using h
  · have h := (claim_C2_tool_call_closure "mid1" initialTransState).1
      [⟨"", some ⟨"fc1", "search", none⟩, none⟩,
       ⟨"", none, some ⟨"fc1", some [("ok", JValue.bool true)]⟩⟩]
    simpa using h
